import Mathlib

/-
  Verification development for the lead-form landing-page scripts
  (form-validation.js, blocks-manager.js, bitrix24 integration module).
  Strings are modelled as lists of characters; JS values as an inductive
  JSON-like type; async control flow as explicit traces.
-/

/- ===== Phone mask (form-validation.js, formatPhoneNumber) ===== -/

/-- Leading-digit normalization from formatPhoneNumber: a leading 8 becomes 7,
any other leading non-7 digit gets 7 prepended, empty stays empty. -/
def normalizeDigits : List Char → List Char
  | [] => []
  | c :: rest =>
    if c = '8' then '7' :: rest
    else if c ≠ '7' then '7' :: c :: rest
    else c :: rest

/-- The progressive mask assembly from formatPhoneNumber, on the normalized,
truncated digit list.  substring(a, b) is modelled as take b followed by drop a. -/
def phoneMaskOf (digits : List Char) : List Char :=
  (if 1 ≤ digits.length then ['+', '7'] else [])
  ++ (if 2 ≤ digits.length then [' ', '('] ++ ((digits.take (min 4 digits.length)).drop 1) else [])
  ++ (if 5 ≤ digits.length then [')', ' '] ++ ((digits.take (min 7 digits.length)).drop 4) else [])
  ++ (if 8 ≤ digits.length then ['-'] ++ ((digits.take (min 9 digits.length)).drop 7) else [])
  ++ (if 10 ≤ digits.length then ['-'] ++ ((digits.take 11).drop 9) else [])

/-- formatPhoneNumber from form-validation.js: strip non-digits, normalize the
leading digit, cap at 11 digits, then build the progressive mask. -/
def formatPhoneNumber (value : List Char) : List Char :=
  phoneMaskOf ((normalizeDigits (value.filter Char.isDigit)).take 11)

/-- Normalization and truncation as the spec words it: leading 8 replaced by 7,
other leading non-7 digit gets 7 prepended, capped at 11 significant digits. -/
def specNormalizeTrunc (d : List Char) : List Char :=
  (match d with
   | [] => []
   | c :: rest =>
     if c = '8' then '7' :: rest
     else if c ≠ '7' then '7' :: c :: rest
     else c :: rest).take 11

/-- The progressive mask as the spec words it: empty for no digits, then +7,
then a space-paren with digits 2 to 4, then paren-space with digits 5 to 7,
then a dash with digits 8 to 9, then a dash with digits 10 to 11. -/
def specPhoneMask (d : List Char) : List Char :=
  let digits := specNormalizeTrunc d
  (if digits.length = 0 then [] else ['+', '7'])
  ++ (if 2 ≤ digits.length then [' ', '('] ++ ((digits.drop 1).take 3) else [])
  ++ (if 5 ≤ digits.length then [')', ' '] ++ ((digits.drop 4).take 3) else [])
  ++ (if 8 ≤ digits.length then ['-'] ++ ((digits.drop 7).take 2) else [])
  ++ (if 10 ≤ digits.length then ['-'] ++ ((digits.drop 9).take 2) else [])

lemma take_min_drop (l : List Char) (a b : Nat) :
    (l.take (min b l.length)).drop a = (l.drop a).take (b - a) := by
  have h1 : l.take (min b l.length) = l.take b := by
    rcases le_total b l.length with h | h
    · rw [min_eq_left h]
    · rw [min_eq_right h, List.take_length, List.take_of_length_le h]
  rw [h1, List.drop_take]

lemma phoneMaskOf_eq_specBody (digits : List Char) :
    phoneMaskOf digits =
    (if digits.length = 0 then [] else ['+', '7'])
    ++ (if 2 ≤ digits.length then [' ', '('] ++ ((digits.drop 1).take 3) else [])
    ++ (if 5 ≤ digits.length then [')', ' '] ++ ((digits.drop 4).take 3) else [])
    ++ (if 8 ≤ digits.length then ['-'] ++ ((digits.drop 7).take 2) else [])
    ++ (if 10 ≤ digits.length then ['-'] ++ ((digits.drop 9).take 2) else []) := by
  unfold phoneMaskOf
  have g1 : (if 1 ≤ digits.length then (['+', '7'] : List Char) else [])
      = (if digits.length = 0 then [] else ['+', '7']) := by
    rcases Nat.eq_zero_or_pos digits.length with h | h
    · simp [h]
    · simp [h, Nat.pos_iff_ne_zero.mp h]
  have s1 := take_min_drop digits 1 4
  have s2 := take_min_drop digits 4 7
  have s3 := take_min_drop digits 7 9
  have s4 : (digits.take 11).drop 9 = (digits.drop 9).take 2 := by
    rw [List.drop_take]
  rw [g1, s1, s2, s3, s4]

lemma specNormalizeTrunc_eq (d : List Char) :
    specNormalizeTrunc d = (normalizeDigits d).take 11 := by
  cases d <;> rfl

lemma normalizeDigits_all_digit {ds : List Char} (hd : ∀ c ∈ ds, c.isDigit = true) :
    ∀ c ∈ normalizeDigits ds, c.isDigit = true := by
  intro c hc
  cases ds with
  | nil => simp [normalizeDigits] at hc
  | cons a rest =>
    have ha : a.isDigit = true := hd a (List.mem_cons_self _ _)
    have hrest : ∀ x ∈ rest, x.isDigit = true := fun x hx => hd x (List.mem_cons_of_mem _ hx)
    simp only [normalizeDigits] at hc
    split_ifs at hc with h1 h2
    · rcases List.mem_cons.mp hc with h | h
      · subst h; decide
      · exact hrest c h
    · rcases List.mem_cons.mp hc with h | h
      · subst h; decide
      · rcases List.mem_cons.mp h with h | h
        · subst h; exact ha
        · exact hrest c h
    · rcases List.mem_cons.mp hc with h | h
      · subst h; exact ha
      · exact hrest c h

lemma normalizeDigits_head7 {ds : List Char} (h : ds ≠ []) :
    ∃ tail, normalizeDigits ds = '7' :: tail := by
  cases ds with
  | nil => exact absurd rfl h
  | cons a rest =>
    simp only [normalizeDigits]
    split_ifs with h1 h2
    · exact ⟨rest, rfl⟩
    · exact ⟨a :: rest, rfl⟩
    · rw [not_not] at h2
      exact ⟨rest, by rw [h2]⟩

lemma take_drop_take (t : List Char) (a b : Nat) :
    t.take a ++ (t.drop a).take b = t.take (a + b) := (List.take_add t a b).symm

lemma seg_digits {d : List Char} (hall : ∀ c ∈ d, c.isDigit = true) (k m : Nat) :
    ((d.drop k).take m).filter Char.isDigit = (d.drop k).take m :=
  List.filter_eq_self.mpr fun c hc =>
    hall c (List.mem_of_mem_drop (List.mem_of_mem_take hc))

lemma filter_lit_plus7 : (['+', '7'] : List Char).filter Char.isDigit = ['7'] := rfl

lemma filter_lit_open : ([' ', '('] : List Char).filter Char.isDigit = [] := rfl

lemma filter_lit_close : ([')', ' '] : List Char).filter Char.isDigit = [] := rfl

lemma filter_lit_dash : (['-'] : List Char).filter Char.isDigit = [] := rfl

lemma take_chunks_2 (t : List Char) (h : t.length ≤ 6) :
    t.take 3 ++ (t.drop 3).take 3 = t := by
  rw [take_drop_take]
  exact List.take_of_length_le (by omega)

lemma take_chunks_3 (t : List Char) (h : t.length ≤ 8) :
    t.take 3 ++ ((t.drop 3).take 3 ++ (t.drop 6).take 2) = t := by
  have e2 : t.drop 6 = (t.drop 3).drop 3 := by rw [List.drop_drop]
  rw [e2, take_drop_take, take_drop_take]
  exact List.take_of_length_le (by omega)

lemma take_chunks_4 (t : List Char) (h : t.length ≤ 10) :
    t.take 3 ++ ((t.drop 3).take 3 ++ ((t.drop 6).take 2 ++ (t.drop 8).take 2)) = t := by
  have e1 : t.drop 8 = (t.drop 6).drop 2 := by rw [List.drop_drop]
  rw [e1, take_drop_take]
  have e2 : t.drop 6 = (t.drop 3).drop 3 := by rw [List.drop_drop]
  rw [e2, take_drop_take, take_drop_take]
  exact List.take_of_length_le (by omega)

lemma filter_phoneMaskOf {digits : List Char}
    (hall : ∀ c ∈ digits, c.isDigit = true)
    (hhead : digits = [] ∨ ∃ t, digits = '7' :: t)
    (hlen : digits.length ≤ 11) :
    (phoneMaskOf digits).filter Char.isDigit = digits := by
  rcases hhead with h | ⟨t, ht⟩
  · subst h; rfl
  · subst ht
    have hn : t.length ≤ 10 := by
      simp only [List.length_cons] at hlen; omega
    have d1 : ('7' :: t).drop 1 = t := rfl
    have d4 : ('7' :: t).drop 4 = t.drop 3 := rfl
    have d7 : ('7' :: t).drop 7 = t.drop 6 := rfl
    have d9 : ('7' :: t).drop 9 = t.drop 8 := rfl
    rw [phoneMaskOf_eq_specBody]
    have c0 : ¬(('7' :: t).length = 0) := by simp only [List.length_cons]; omega
    by_cases h10 : 9 ≤ t.length
    · have c2 : 2 ≤ ('7' :: t).length := by simp only [List.length_cons]; omega
      have c5 : 5 ≤ ('7' :: t).length := by simp only [List.length_cons]; omega
      have c8 : 8 ≤ ('7' :: t).length := by simp only [List.length_cons]; omega
      have c10 : 10 ≤ ('7' :: t).length := by simp only [List.length_cons]; omega
      rw [if_neg c0, if_pos c2, if_pos c5, if_pos c8, if_pos c10]
      simp only [List.filter_append, filter_lit_plus7, filter_lit_open, filter_lit_close,
        filter_lit_dash, seg_digits hall, List.append_nil, List.nil_append]
      rw [d1, d4, d7, d9]
      simp only [List.append_assoc, List.cons_append, List.nil_append]
      rw [take_chunks_4 t (by omega)]
    · by_cases h8 : 7 ≤ t.length
      · have c2 : 2 ≤ ('7' :: t).length := by simp only [List.length_cons]; omega
        have c5 : 5 ≤ ('7' :: t).length := by simp only [List.length_cons]; omega
        have c8 : 8 ≤ ('7' :: t).length := by simp only [List.length_cons]; omega
        have c10 : ¬(10 ≤ ('7' :: t).length) := by simp only [List.length_cons]; omega
        rw [if_neg c0, if_pos c2, if_pos c5, if_pos c8, if_neg c10]
        simp only [List.filter_append, filter_lit_plus7, filter_lit_open, filter_lit_close,
          filter_lit_dash, seg_digits hall, List.append_nil, List.nil_append]
        rw [d1, d4, d7]
        simp only [List.append_assoc, List.cons_append, List.nil_append]
        rw [take_chunks_3 t (by omega)]
      · by_cases h5 : 4 ≤ t.length
        · have c2 : 2 ≤ ('7' :: t).length := by simp only [List.length_cons]; omega
          have c5 : 5 ≤ ('7' :: t).length := by simp only [List.length_cons]; omega
          have c8 : ¬(8 ≤ ('7' :: t).length) := by simp only [List.length_cons]; omega
          have c10 : ¬(10 ≤ ('7' :: t).length) := by simp only [List.length_cons]; omega
          rw [if_neg c0, if_pos c2, if_pos c5, if_neg c8, if_neg c10]
          simp only [List.filter_append, filter_lit_plus7, filter_lit_open, filter_lit_close,
            filter_lit_dash, seg_digits hall, List.append_nil, List.nil_append]
          rw [d1, d4]
          simp only [List.append_assoc, List.cons_append, List.nil_append]
          rw [take_chunks_2 t (by omega)]
        · by_cases h2 : 1 ≤ t.length
          · have c2 : 2 ≤ ('7' :: t).length := by simp only [List.length_cons]; omega
            have c5 : ¬(5 ≤ ('7' :: t).length) := by simp only [List.length_cons]; omega
            have c8 : ¬(8 ≤ ('7' :: t).length) := by simp only [List.length_cons]; omega
            have c10 : ¬(10 ≤ ('7' :: t).length) := by simp only [List.length_cons]; omega
            rw [if_neg c0, if_pos c2, if_neg c5, if_neg c8, if_neg c10]
            simp only [List.filter_append, filter_lit_plus7, filter_lit_open, filter_lit_close,
              filter_lit_dash, seg_digits hall, List.append_nil, List.nil_append]
            rw [d1]
            simp only [List.cons_append, List.nil_append]
            rw [List.take_of_length_le (show t.length ≤ 3 by omega)]
          · have hte : t = [] := List.eq_nil_of_length_eq_zero (by omega)
            subst hte
            rfl

/-- C1: for every digit sequence of length 0 to 11, formatPhoneNumber produces the
progressive mask described by the spec (normalize the leading digit, cap at 11
digits, then emit the punctuation pieces as soon as enough digits are present);
in particular the three example inputs produce the documented outputs. -/
theorem formatPhoneNumber_progressive_mask :
    (∀ d : List Char, (∀ c ∈ d, c.isDigit = true) → d.length ≤ 11 →
      formatPhoneNumber d = specPhoneMask d)
    ∧ formatPhoneNumber "9991234567".data = "+7 (999) 123-45-67".data
    ∧ formatPhoneNumber "89991234567".data = "+7 (999) 123-45-67".data
    ∧ formatPhoneNumber "71234".data = "+7 (123) 4".data := by
  refine ⟨?_, rfl, rfl, rfl⟩
  intro d hd _
  have hfilter : d.filter Char.isDigit = d := List.filter_eq_self.mpr hd
  show phoneMaskOf ((normalizeDigits (d.filter Char.isDigit)).take 11) = specPhoneMask d
  rw [hfilter]
  unfold specPhoneMask
  rw [specNormalizeTrunc_eq, phoneMaskOf_eq_specBody]

/-- Witness for C1 at the concrete input 9991234567. -/
theorem formatPhoneNumber_progressive_mask_witness :
    (∀ c ∈ "9991234567".data, c.isDigit = true) ∧ "9991234567".data.length ≤ 11 ∧
      formatPhoneNumber "9991234567".data = specPhoneMask "9991234567".data :=
  ⟨by decide, by decide,
    formatPhoneNumber_progressive_mask.1 "9991234567".data (by decide) (by decide)⟩

/-- C9: formatPhoneNumber is idempotent on every input string, so re-running the
formatter over its own output leaves the value unchanged. -/
theorem formatPhoneNumber_idempotent (s : List Char) :
    formatPhoneNumber (formatPhoneNumber s) = formatPhoneNumber s := by
  have key : ∀ D : List Char, (∀ c ∈ D, c.isDigit = true) →
      (D = [] ∨ ∃ t, D = '7' :: t) → D.length ≤ 11 →
      formatPhoneNumber (phoneMaskOf D) = phoneMaskOf D := by
    intro D hall hhead hlen
    show phoneMaskOf ((normalizeDigits ((phoneMaskOf D).filter Char.isDigit)).take 11)
      = phoneMaskOf D
    rw [filter_phoneMaskOf hall hhead hlen]
    have hndD : normalizeDigits D = D := by
      rcases hhead with h | ⟨t, ht⟩
      · rw [h]; rfl
      · rw [ht]
        simp only [normalizeDigits]
        rw [if_neg (by decide), if_neg (by simp)]
    rw [hndD, List.take_of_length_le hlen]
  have hall : ∀ c ∈ (normalizeDigits (s.filter Char.isDigit)).take 11, c.isDigit = true := by
    intro c hc
    exact normalizeDigits_all_digit (fun x hx => List.of_mem_filter hx) c
      (List.mem_of_mem_take hc)
  have hhead : (normalizeDigits (s.filter Char.isDigit)).take 11 = []
      ∨ ∃ t, (normalizeDigits (s.filter Char.isDigit)).take 11 = '7' :: t := by
    cases hf : s.filter Char.isDigit with
    | nil => left; rfl
    | cons a rest =>
      right
      obtain ⟨tail, htail⟩ := normalizeDigits_head7 (show (a :: rest : List Char) ≠ [] by simp)
      rw [htail]
      exact ⟨tail.take 10, rfl⟩
  have hlen : ((normalizeDigits (s.filter Char.isDigit)).take 11).length ≤ 11 :=
    List.length_take_le _ _
  exact key _ hall hhead hlen

/- ===== Field validation (form-validation.js, ValidationRules / validateField) ===== -/

/-- The JS regex whitespace class: the characters matched by a backslash-s atom. -/
def jsWhitespace (c : Char) : Bool :=
  c == '\t' || c == '\n' || c.val == 11 || c.val == 12 || c == '\r' || c == ' '
  || c.val == 0xA0 || c.val == 0x1680 || decide (0x2000 ≤ c.val ∧ c.val ≤ 0x200A)
  || c.val == 0x2028 || c.val == 0x2029 || c.val == 0x202F || c.val == 0x205F
  || c.val == 0x3000 || c.val == 0xFEFF

/-- The character class of the name rule in ValidationRules: Cyrillic letters
а-я and А-Я plus ё and Ё, Latin letters, whitespace, and hyphen. -/
def nameCharOk (c : Char) : Bool :=
  decide ('а' ≤ c ∧ c ≤ 'я') || decide ('А' ≤ c ∧ c ≤ 'Я') || c == 'ё' || c == 'Ё'
  || decide ('a' ≤ c ∧ c ≤ 'z') || decide ('A' ≤ c ∧ c ≤ 'Z') || jsWhitespace c || c == '-'

/-- The anchored name pattern: one or more characters of the name class. -/
def nameRegexTest (s : List Char) : Bool :=
  !s.isEmpty && s.all nameCharOk

/-- The character class as the claim words it: a-zA-Z, the full Cyrillic
block U+0400 through U+04FF, whitespace, hyphen. -/
def specNameCharOk (c : Char) : Bool :=
  decide ('a' ≤ c ∧ c ≤ 'z') || decide ('A' ≤ c ∧ c ≤ 'Z')
  || decide (0x400 ≤ c.val ∧ c.val ≤ 0x4FF) || jsWhitespace c || c == '-'

/-- The anchored phone pattern +7 (ddd) ddd-dd-dd from ValidationRules. -/
def phonePatternTest : List Char → Bool
  | ['+', '7', ' ', '(', a1, a2, a3, ')', ' ', b1, b2, b3, '-', c1, c2, '-', d1, d2] =>
    a1.isDigit && a2.isDigit && a3.isDigit && b1.isDigit && b2.isDigit && b3.isDigit
      && c1.isDigit && c2.isDigit && d1.isDigit && d2.isDigit
  | _ => false

/-- Result of validateField. -/
structure FieldCheck where
  valid : Bool
  message : Option String
deriving DecidableEq

/-- One entry of ValidationRules. -/
structure ValidationRule where
  required : Bool
  minLength : Option Nat
  pattern : Option (List Char → Bool)
  message : String

/-- ValidationRules from form-validation.js. -/
def ValidationRules : String → Option ValidationRule
  | "name" => some ⟨false, some 2, some nameRegexTest,
      "Имя должно содержать минимум 2 символа и только буквы"⟩
  | "phone" => some ⟨false, none, some phonePatternTest,
      "Введите полный номер телефона в формате +7 (999) 123-45-67"⟩
  | "program" => some ⟨true, none, none, "Выберите программу"⟩
  | _ => none

/-- validateField from form-validation.js: required check, then min length,
then pattern, first failing check reports the rule message. -/
def validateField (field : String) (value : List Char) : FieldCheck :=
  match ValidationRules field with
  | none => ⟨true, none⟩
  | some r =>
    if r.required && value.isEmpty then ⟨false, some r.message⟩
    else if (match r.minLength with
             | some m => decide (value.length < m)
             | none => false) then ⟨false, some r.message⟩
    else match r.pattern with
      | some p => if p value then ⟨true, none⟩ else ⟨false, some r.message⟩
      | none => ⟨true, none⟩

/-- C6 counterexample: the two-character name using the Cyrillic letter
U+0450 is inside the claimed class a-zA-Z U+0400-U+04FF but validateField
rejects it, so the claimed equivalence fails at this input. -/
theorem validateField_name_block_counterexample :
    (validateField "name" ['ѐ', 'ѐ']).valid = false
    ∧ (¬(['ѐ', 'ѐ'] : List Char).isEmpty = true
        ∧ 2 ≤ (['ѐ', 'ѐ'] : List Char).length
        ∧ ∀ c ∈ (['ѐ', 'ѐ'] : List Char), specNameCharOk c = true) := by
  decide

/-- C6 amended: validateField on the name field accepts exactly the values of
length at least 2 whose characters all lie in the class of the code, namely
Cyrillic а-яА-Я with ё and Ё, Latin letters, whitespace, and hyphen; the
examples A (too short) and Anna Li (valid) behave as documented. -/
theorem validateField_name_valid_iff :
    (∀ v : List Char,
      (validateField "name" v).valid = true ↔ (2 ≤ v.length ∧ v.all nameCharOk = true))
    ∧ (validateField "name" "A".data).valid = false
    ∧ (validateField "name" "Anna Li".data).valid = true := by
  refine ⟨?_, by decide, by decide⟩
  intro v
  have hr : ValidationRules "name" = some ⟨false, some 2, some nameRegexTest,
      "Имя должно содержать минимум 2 символа и только буквы"⟩ := rfl
  unfold validateField
  rw [hr]
  simp only [Bool.false_and, Bool.false_eq_true, if_false, decide_eq_true_eq, nameRegexTest]
  by_cases hlen : v.length < 2
  · simp only [if_pos hlen]
    constructor
    · intro h; exact absurd h (by simp)
    · intro h; omega
  · have h2 : 2 ≤ v.length := by omega
    have hne : v.isEmpty = false := by
      cases v with
      | nil => simp at hlen
      | cons a l => simp
    simp only [if_neg hlen, hne, Bool.not_false, Bool.true_and]
    by_cases hall : v.all nameCharOk = true
    · simp only [if_pos hall]
      simp [h2, hall]
    · simp only [if_neg hall]
      constructor
      · intro h; exact absurd h (by simp)
      · intro h; exact absurd h.2 hall

/- ===== Retry with exponential backoff (bitrix24 module, retryWithBackoff) ===== -/

/-- Observable events of the retry loop: an invocation of the wrapped function
with its 0-indexed attempt number, or a cooperative wait in milliseconds. -/
inductive RetryEvent where
  | call (i : Nat)
  | wait (ms : Nat)
deriving DecidableEq

/-- Outcome of the retry loop: a returned value, a propagated final error, or
loop exhaustion without any attempt (only possible for zero attempts). -/
inductive RetryOutcome (E A : Type) where
  | ok (a : A)
  | err (e : E)
  | exhausted
deriving DecidableEq

/-- The loop body of retryWithBackoff: attempt i, with r attempts remaining.
On success return; on the last attempt rethrow; otherwise wait delay times
2 to the i and continue. -/
def retryGo (fn : Nat → Except E A) (delay : Nat) : Nat → Nat → List RetryEvent × RetryOutcome E A
  | _, 0 => ([], RetryOutcome.exhausted)
  | i, r + 1 =>
    match fn i with
    | Except.ok a => ([RetryEvent.call i], RetryOutcome.ok a)
    | Except.error e =>
      if r = 0 then ([RetryEvent.call i], RetryOutcome.err e)
      else
        let rest := retryGo fn delay (i + 1) r
        (RetryEvent.call i :: RetryEvent.wait (delay * 2 ^ i) :: rest.1, rest.2)

/-- retryWithBackoff from the bitrix24 module, as its event trace and outcome. -/
def retryWithBackoff (fn : Nat → Except E A) (attempts delay : Nat) :
    List RetryEvent × RetryOutcome E A :=
  retryGo fn delay 0 attempts

/-- C2: an always-throwing function under retryWithBackoff with 3 attempts and
base delay 1000 is called exactly three times with waits of 1000 ms before the
second call and 2000 ms before the third, no wait after the final call, and the
final error propagates. -/
theorem retryWithBackoff_three_failures (E A : Type) (e : Nat → E) :
    retryWithBackoff (fun i => (Except.error (e i) : Except E A)) 3 1000 =
      ([RetryEvent.call 0, RetryEvent.wait 1000, RetryEvent.call 1,
        RetryEvent.wait 2000, RetryEvent.call 2], RetryOutcome.err (e 2)) := rfl

/- ===== Lead creation (bitrix24 module, createLead / sendViaEmail) ===== -/

/-- SubmissionResult as produced by the submission pipeline. -/
structure SubmissionResult where
  success : Bool
  method : String
  message : String
  warning : Option String
  leadId : Option Nat
deriving DecidableEq

/-- sendViaEmail from the bitrix24 module: builds the mail body and returns a
synthetic success without performing network I/O. -/
def sendViaEmail : SubmissionResult :=
  ⟨true, "email_fallback", "Заявка отправлена на email", none, none⟩

/-- The email-fallback tier as createLead runs it: sendViaEmail cannot throw,
so the step always yields its result. -/
def emailFallbackStep : Except String SubmissionResult :=
  Except.ok sendViaEmail

/-- createLead from the bitrix24 module: retry the webhook send, on success
report the bitrix24 method with the lead id, otherwise fall back to email;
if the email step threw, the generic call-us error would propagate. -/
def createLead (bitrix : Nat → Except String Nat) (attempts delay : Nat) :
    Except String SubmissionResult :=
  match (retryWithBackoff bitrix attempts delay).2 with
  | RetryOutcome.ok lid =>
    Except.ok ⟨true, "bitrix24", "Заявка успешно отправлена в Bitrix24", none, some lid⟩
  | _ =>
    match emailFallbackStep with
    | Except.ok _ =>
      Except.ok ⟨true, "email_fallback", "Заявка отправлена на email (Bitrix24 недоступен)",
        some "Bitrix24 API недоступен, использован email fallback", none⟩
    | Except.error _ =>
      Except.error "Не удалось отправить заявку. Пожалуйста, позвоните нам напрямую."

/-- C10: createLead never returns an unsuccessful result: every return value is
a success carrying either the bitrix24 method with a lead id or the
email_fallback method with a warning, because the email tier performs no I/O
and unconditionally succeeds, leaving its error branch unreachable. -/
theorem createLead_never_fails (bitrix : Nat → Except String Nat) (attempts delay : Nat) :
    ∃ r : SubmissionResult, createLead bitrix attempts delay = Except.ok r
      ∧ r.success = true
      ∧ ((r.method = "bitrix24" ∧ ∃ lid, r.leadId = some lid)
          ∨ (r.method = "email_fallback" ∧ ∃ w, r.warning = some w)) := by
  unfold createLead
  cases h : (retryWithBackoff bitrix attempts delay).2 with
  | ok lid =>
    exact ⟨_, rfl, rfl, Or.inl ⟨rfl, lid, rfl⟩⟩
  | err e =>
    exact ⟨_, rfl, rfl, Or.inr ⟨rfl, _, rfl⟩⟩
  | exhausted =>
    exact ⟨_, rfl, rfl, Or.inr ⟨rfl, _, rfl⟩⟩

/- ===== Form submission pipeline (form-validation.js, handleFormSubmit) ===== -/

/-- The form fields collected on submit. -/
structure FormData where
  name : List Char
  phone : List Char
  program : List Char
  childrenCount : List Char
  comment : List Char

/-- Per-field contribution to the errors object of validateForm. -/
def fieldError (field : String) (value : List Char) : List (String × String) :=
  match validateField field value with
  | ⟨true, _⟩ => []
  | ⟨false, m⟩ => [(field, m.getD "")]

/-- validateForm from form-validation.js: name, phone and program checks. -/
def validateForm (fd : FormData) : List (String × String) :=
  fieldError "name" fd.name ++ fieldError "phone" fd.phone ++ fieldError "program" fd.program

/-- The five form states of form-validation.js. -/
inductive FormState where
  | idle | validating | submitting | success | error
deriving DecidableEq

/-- The parsed JSON body of the primary backend response. -/
structure GasData where
  success : Bool
  error : Option String
deriving DecidableEq

/-- Environment of one submission: availability and outcomes of the primary
backend, the CRM lead-creation function, and the retry configuration. -/
structure SubmitEnv where
  gasAvailable : Bool
  gasCall : Except String GasData
  createLeadAvailable : Bool
  bitrix : Nat → Except String Nat
  retryAttempts : Nat
  retryDelay : Nat

/-- JS short-circuit or on an optional string against a default. -/
def jsOrElse (o : Option String) (d : String) : String :=
  match o with
  | some s => if s = "" then d else s
  | none => d

/-- The tier selection of handleFormSubmit: primary backend first, CRM
fallback on its failure, mock submission when neither is available. -/
def submissionStep (_fd : FormData) (env : SubmitEnv) : Except String SubmissionResult :=
  if env.gasAvailable then
    match env.gasCall with
    | Except.ok gd =>
      if gd.success then
        Except.ok ⟨true, "gas", "Заявка успешно отправлена!", none, none⟩
      else
        if env.createLeadAvailable then createLead env.bitrix env.retryAttempts env.retryDelay
        else Except.error (jsOrElse gd.error "Ошибка GAS")
    | Except.error e =>
      if env.createLeadAvailable then createLead env.bitrix env.retryAttempts env.retryDelay
      else Except.error e
  else if env.createLeadAvailable then
    createLead env.bitrix env.retryAttempts env.retryDelay
  else
    Except.ok ⟨true, "mock", "Заявка отправлена (тестовый режим)", none, none⟩

/-- Observable outcome of one handleFormSubmit run: the form states set in
order, the submission result or raised error, and the scheduled delayed
state reset, when one was installed. -/
structure SubmitRun where
  states : List FormState
  result : Option (Except String SubmissionResult)
  reset : Option (Nat × FormState)

/-- handleFormSubmit from form-validation.js: validating state, early error on
validation failure, else submitting, then success with a 5000 ms reset to
idle, or the error state when the pipeline raised or reported failure. -/
def handleFormSubmit (fd : FormData) (env : SubmitEnv) : SubmitRun :=
  if (validateForm fd).isEmpty then
    match submissionStep fd env with
    | Except.ok r =>
      if r.success then
        ⟨[FormState.validating, FormState.submitting, FormState.success],
          some (Except.ok r), some (5000, FormState.idle)⟩
      else
        ⟨[FormState.validating, FormState.submitting, FormState.error],
          some (Except.error (if r.message = "" then "Ошибка отправки" else r.message)), none⟩
    | Except.error e =>
      ⟨[FormState.validating, FormState.submitting, FormState.error],
        some (Except.error e), none⟩
  else
    ⟨[FormState.validating, FormState.error], none, none⟩

lemma retryGo_not_ok {E A : Type} (fn : Nat → Except E A) (delay : Nat)
    (h : ∀ i, ∃ e, fn i = Except.error e) :
    ∀ r i a, (retryGo fn delay i r).2 ≠ RetryOutcome.ok a := by
  intro r
  induction r with
  | zero => intro i a; simp [retryGo]
  | succ r ih =>
    intro i a
    obtain ⟨e, he⟩ := h i
    by_cases hr : r = 0
    · subst hr; simp [retryGo, he]
    · simp only [retryGo, he, if_neg hr]
      exact ih (i + 1) a

lemma createLead_email_fallback (bitrix : Nat → Except String Nat) (attempts delay : Nat)
    (h : ∀ i, ∃ e, bitrix i = Except.error e) :
    createLead bitrix attempts delay = Except.ok ⟨true, "email_fallback",
      "Заявка отправлена на email (Bitrix24 недоступен)",
      some "Bitrix24 API недоступен, использован email fallback", none⟩ := by
  unfold createLead
  cases hc : (retryWithBackoff bitrix attempts delay).2 with
  | ok a => exact absurd hc (retryGo_not_ok bitrix delay h attempts 0 a)
  | err e => rfl
  | exhausted => rfl

/-- C3: a valid form whose primary backend call fails, whose CRM attempts all
fail, and whose email fallback runs, yields a successful email_fallback result
carrying a warning, with the UI passing validating, submitting, success and a
scheduled revert to idle after 5000 ms. -/
theorem email_fallback_end_to_end (fd : FormData) (env : SubmitEnv)
    (hv : validateForm fd = [])
    (hgas : env.gasAvailable = true)
    (hgasfail : match env.gasCall with
                | Except.ok gd => gd.success = false
                | Except.error _ => True)
    (hcl : env.createLeadAvailable = true)
    (hcrm : ∀ i, ∃ e, env.bitrix i = Except.error e) :
    ∃ w, handleFormSubmit fd env =
      ⟨[FormState.validating, FormState.submitting, FormState.success],
        some (Except.ok ⟨true, "email_fallback",
          "Заявка отправлена на email (Bitrix24 недоступен)", some w, none⟩),
        some (5000, FormState.idle)⟩ := by
  refine ⟨"Bitrix24 API недоступен, использован email fallback", ?_⟩
  unfold handleFormSubmit
  rw [hv]
  simp only [List.isEmpty_nil, if_true]
  have hstep : submissionStep fd env = Except.ok ⟨true, "email_fallback",
      "Заявка отправлена на email (Bitrix24 недоступен)",
      some "Bitrix24 API недоступен, использован email fallback", none⟩ := by
    unfold submissionStep
    rw [hgas]
    simp only [if_true]
    cases hg : env.gasCall with
    | ok gd =>
      have hgf : gd.success = false := by rw [hg] at hgasfail; exact hgasfail
      simp only [hgf, Bool.false_eq_true, if_false, hcl, if_true]
      exact createLead_email_fallback env.bitrix env.retryAttempts env.retryDelay hcrm
    | error e =>
      simp only [hcl, if_true]
      exact createLead_email_fallback env.bitrix env.retryAttempts env.retryDelay hcrm
  rw [hstep]
  rfl

/-- A concrete valid form submission. -/
def exampleFormData : FormData :=
  ⟨"Anna Li".data, "+7 (999) 123-45-67".data, "heroes".data, "2".data, []⟩

/-- Environment where the primary backend is unreachable and every CRM webhook
attempt fails. -/
def envEmailFallback : SubmitEnv :=
  ⟨true, Except.error "primary backend unreachable", true,
    fun _ => Except.error "webhook unreachable", 3, 1000⟩

/-- Environment where the primary backend succeeds. -/
def envGasOk : SubmitEnv :=
  ⟨true, Except.ok ⟨true, none⟩, false, fun _ => Except.error "unused", 3, 1000⟩

/-- Witness for C3 at a concrete valid form and failing backends. -/
theorem email_fallback_end_to_end_witness :
    validateForm exampleFormData = []
    ∧ envEmailFallback.gasAvailable = true
    ∧ envEmailFallback.createLeadAvailable = true
    ∧ ∃ w, handleFormSubmit exampleFormData envEmailFallback =
        ⟨[FormState.validating, FormState.submitting, FormState.success],
          some (Except.ok ⟨true, "email_fallback",
            "Заявка отправлена на email (Bitrix24 недоступен)", some w, none⟩),
          some (5000, FormState.idle)⟩ :=
  ⟨rfl, rfl, rfl,
    email_fallback_end_to_end exampleFormData envEmailFallback rfl rfl trivial rfl
      (fun _ => ⟨"webhook unreachable", rfl⟩)⟩

lemma createLead_method (bitrix : Nat → Except String Nat) (attempts delay : Nat)
    (r : SubmissionResult) (h : createLead bitrix attempts delay = Except.ok r) :
    r.method = "bitrix24" ∨ r.method = "email_fallback" := by
  unfold createLead at h
  cases hc : (retryWithBackoff bitrix attempts delay).2 with
  | ok a =>
    rw [hc] at h
    obtain rfl := Except.ok.inj h
    left; rfl
  | err e =>
    rw [hc] at h
    obtain rfl := Except.ok.inj h
    right; rfl
  | exhausted =>
    rw [hc] at h
    obtain rfl := Except.ok.inj h
    right; rfl

lemma submissionStep_method (fd : FormData) (env : SubmitEnv) (r : SubmissionResult)
    (h : submissionStep fd env = Except.ok r) :
    r.method = "gas" ∨ r.method = "bitrix24" ∨ r.method = "email_fallback"
      ∨ r.method = "mock" := by
  unfold submissionStep at h
  split at h
  · split at h
    · split at h
      · obtain rfl := Except.ok.inj h
        left; rfl
      · split at h
        · rcases createLead_method _ _ _ _ h with h1 | h1
          · right; left; exact h1
          · right; right; left; exact h1
        · exact absurd h (by simp)
    · split at h
      · rcases createLead_method _ _ _ _ h with h1 | h1
        · right; left; exact h1
        · right; right; left; exact h1
      · exact absurd h (by simp)
  · split at h
    · rcases createLead_method _ _ _ _ h with h1 | h1
      · right; left; exact h1
      · right; right; left; exact h1
    · obtain rfl := Except.ok.inj h
      right; right; right; rfl

/-- C7 counterexample: when the primary backend succeeds, the produced
SubmissionResult carries method gas, which is outside the claimed set
primary, crm, email_fallback, mock. -/
theorem submission_method_counterexample :
    (handleFormSubmit exampleFormData envGasOk).result
        = some (Except.ok ⟨true, "gas", "Заявка успешно отправлена!", none, none⟩)
    ∧ ("gas" : String) ∉ ["primary", "crm", "email_fallback", "mock"] :=
  ⟨rfl, by decide⟩

/-- C7 amended: every SubmissionResult returned by a submission run has its
method drawn from the set gas, bitrix24, email_fallback, mock, the literal
method strings of the code. -/
theorem submission_method_mem (fd : FormData) (env : SubmitEnv) (r : SubmissionResult)
    (h : (handleFormSubmit fd env).result = some (Except.ok r)) :
    r.method = "gas" ∨ r.method = "bitrix24" ∨ r.method = "email_fallback"
      ∨ r.method = "mock" := by
  unfold handleFormSubmit at h
  split at h
  · cases hs : submissionStep fd env with
    | ok r0 =>
      rw [hs] at h
      by_cases h0 : r0.success = true
      · simp only [h0, if_true] at h
        obtain rfl := Except.ok.inj (Option.some.inj h)
        exact submissionStep_method fd env _ hs
      · have h0f : r0.success = false := by revert h0; cases r0.success <;> simp
        simp only [h0f, Bool.false_eq_true, if_false] at h
        simp at h
    | error e =>
      rw [hs] at h
      simp at h
  · simp at h

/-- Witness for the amended C7 at the successful primary-backend run. -/
theorem submission_method_mem_witness :
    (handleFormSubmit exampleFormData envGasOk).result
        = some (Except.ok ⟨true, "gas", "Заявка успешно отправлена!", none, none⟩)
    ∧ ((⟨true, "gas", "Заявка успешно отправлена!", none, none⟩ : SubmissionResult).method = "gas"
        ∨ (⟨true, "gas", "Заявка успешно отправлена!", none, none⟩ : SubmissionResult).method = "bitrix24"
        ∨ (⟨true, "gas", "Заявка успешно отправлена!", none, none⟩ : SubmissionResult).method = "email_fallback"
        ∨ (⟨true, "gas", "Заявка успешно отправлена!", none, none⟩ : SubmissionResult).method = "mock") :=
  ⟨rfl, submission_method_mem exampleFormData envGasOk _ rfl⟩

/- ===== Form state machine (form-validation.js, setFormState / submit wiring) ===== -/

/-- Whether setFormState leaves the submit button disabled in a given state:
validating, submitting and success disable it; error and the default (idle)
re-enable it. -/
def buttonDisabled : FormState → Bool
  | FormState.validating => true
  | FormState.submitting => true
  | FormState.success => true
  | FormState.error => false
  | FormState.idle => false

/-- User-visible events that drive the form state. -/
inductive FormEvent where
  | submitStart
  | validationFail
  | validationOk
  | resolveOk
  | resolveFail
  | resetTimeout
deriving DecidableEq

/-- One transition of the form UI, as wired by handleFormSubmit and the
5000 ms reset timer: a submit event can only fire while the submit button is
enabled. -/
inductive FormStep : FormState → FormEvent → FormState → Prop where
  | submit (s : FormState) : buttonDisabled s = false →
      FormStep s FormEvent.submitStart FormState.validating
  | vfail : FormStep FormState.validating FormEvent.validationFail FormState.error
  | vok : FormStep FormState.validating FormEvent.validationOk FormState.submitting
  | rok : FormStep FormState.submitting FormEvent.resolveOk FormState.success
  | rfail : FormStep FormState.submitting FormEvent.resolveFail FormState.error
  | reset : FormStep FormState.success FormEvent.resetTimeout FormState.idle

/-- A valid event trace from a start state: each entry records the event and
the state it led to. -/
inductive FormTrace : FormState → List (FormEvent × FormState) → Prop where
  | nil (s : FormState) : FormTrace s []
  | cons {s t : FormState} {e : FormEvent} {tr : List (FormEvent × FormState)} :
      FormStep s e t → FormTrace t tr → FormTrace s ((e, t) :: tr)

/-- The steps of a trace as source-event-target triples. -/
def traceSteps (s0 : FormState) : List (FormEvent × FormState) → List (FormState × FormEvent × FormState)
  | [] => []
  | (e, t) :: tr => (s0, e, t) :: traceSteps t tr

lemma traceSteps_valid {s : FormState} {tr : List (FormEvent × FormState)}
    (h : FormTrace s tr) :
    ∀ x ∈ traceSteps s tr, FormStep x.1 x.2.1 x.2.2 := by
  induction h with
  | nil s => intro x hx; simp [traceSteps] at hx
  | cons hstep _ ih =>
    intro x hx
    rcases List.mem_cons.mp hx with h1 | h1
    · subst h1; exact hstep
    · exact ih x h1

/-- C8: in every trace reachable from the initial idle state, a submission
begins only while the state is idle or error, and every step out of submitting
completes the attempt in success or error, so the machine never moves from
submitting directly to submitting. -/
theorem formState_submit_invariant (tr : List (FormEvent × FormState))
    (h : FormTrace FormState.idle tr) :
    ∀ x ∈ traceSteps FormState.idle tr,
      (x.2.1 = FormEvent.submitStart → x.1 = FormState.idle ∨ x.1 = FormState.error)
      ∧ (x.1 = FormState.submitting →
          x.2.2 = FormState.success ∨ x.2.2 = FormState.error) := by
  intro x hx
  have hstep := traceSteps_valid h x hx
  constructor
  · intro hev
    rcases x with ⟨s, e, t⟩
    cases hstep with
    | submit s hbtn =>
      cases s with
      | idle => left; rfl
      | error => right; rfl
      | validating => exact absurd hbtn (by simp [buttonDisabled])
      | submitting => exact absurd hbtn (by simp [buttonDisabled])
      | success => exact absurd hbtn (by simp [buttonDisabled])
    | vfail => exact absurd hev (by simp)
    | vok => exact absurd hev (by simp)
    | rok => exact absurd hev (by simp)
    | rfail => exact absurd hev (by simp)
    | reset => exact absurd hev (by simp)
  · intro hsub
    rcases x with ⟨s, e, t⟩
    cases hstep with
    | submit s hbtn =>
      subst hsub
      exact absurd hbtn (by simp [buttonDisabled])
    | vfail => exact absurd hsub (by simp)
    | vok => exact absurd hsub (by simp)
    | rok => left; rfl
    | rfail => right; rfl
    | reset => exact absurd hsub (by simp)

/-- Witness for C8 on a concrete full submission trace. -/
theorem formState_submit_invariant_witness :
    FormTrace FormState.idle
      [(FormEvent.submitStart, FormState.validating),
       (FormEvent.validationOk, FormState.submitting),
       (FormEvent.resolveOk, FormState.success),
       (FormEvent.resetTimeout, FormState.idle)]
    ∧ ((FormEvent.submitStart = FormEvent.submitStart →
          FormState.idle = FormState.idle ∨ FormState.idle = FormState.error)
        ∧ (FormState.idle = FormState.submitting →
          FormState.validating = FormState.success ∨ FormState.validating = FormState.error)) := by
  have htr : FormTrace FormState.idle
      [(FormEvent.submitStart, FormState.validating),
       (FormEvent.validationOk, FormState.submitting),
       (FormEvent.resolveOk, FormState.success),
       (FormEvent.resetTimeout, FormState.idle)] :=
    FormTrace.cons (FormStep.submit FormState.idle rfl)
      (FormTrace.cons FormStep.vok
        (FormTrace.cons FormStep.rok
          (FormTrace.cons FormStep.reset (FormTrace.nil FormState.idle))))
  exact ⟨htr, formState_submit_invariant _ htr
    (FormState.idle, FormEvent.submitStart, FormState.validating) (by simp [traceSteps])⟩

/- ===== Settings hydrator (blocks-manager.js) ===== -/

/-- A JSON-like value, as handled by the settings loader. -/
inductive JVal where
  | null
  | undef
  | bool (b : Bool)
  | num (n : Int)
  | str (s : String)
  | obj (fields : List (String × JVal))

/-- Property access: undefined on non-objects and absent keys. -/
def JVal.get : JVal → String → JVal
  | JVal.obj fs, k =>
    match fs.find? (fun p => p.1 == k) with
    | some p => p.2
    | none => JVal.undef
  | _, _ => JVal.undef

/-- JS truthiness. -/
def JVal.truthy : JVal → Bool
  | JVal.null => false
  | JVal.undef => false
  | JVal.bool b => b
  | JVal.num n => n != 0
  | JVal.str s => s != ""
  | JVal.obj _ => true

/-- Whether typeof yields object (null and objects). -/
def JVal.isObjectType : JVal → Bool
  | JVal.null => true
  | JVal.obj _ => true
  | _ => false

/-- Whether typeof yields boolean. -/
def JVal.isBoolType : JVal → Bool
  | JVal.bool _ => true
  | _ => false

/-- The length of Object.keys: field count of objects, character count of
strings, zero otherwise. -/
def JVal.keyCount : JVal → Nat
  | JVal.obj fs => fs.length
  | JVal.str s => s.length
  | _ => 0

/-- Object.entries of a value. -/
def JVal.entries : JVal → List (String × JVal)
  | JVal.obj fs => fs
  | _ => []

/-- The fixed required-section list of validateSettingsIntegrity. -/
def requiredSections : List String :=
  ["problemSolution", "programs", "socialProof", "testimonials", "gallery", "faq", "leadForm"]

/-- The per-section structure check: truthy title, boolean enabled, truthy
content. -/
def sectionStructOk (s : JVal) : Bool :=
  (s.get "title").truthy && (s.get "enabled").isBoolType && (s.get "content").truthy

/-- validateSettingsIntegrity from blocks-manager.js: sections must be a
truthy object, non-empty, with at most half of the required sections missing,
and every section structurally valid. -/
def validateSettingsIntegrity (settings : JVal) : Bool :=
  if !((settings.get "sections").truthy && (settings.get "sections").isObjectType) then false
  else if (settings.get "sections").keyCount = 0 then false
  else if 2 * (requiredSections.countP fun k => !(((settings.get "sections").get k).truthy))
      > requiredSections.length then false
  else (settings.get "sections").entries.all fun p => sectionStructOk p.2

/-- The acceptance condition as the spec words it: a non-empty sections object
whose sections all have truthy title, boolean enabled and truthy content, with
at most half of the required-section list missing. -/
def specIntegrity (settings : JVal) : Prop :=
  (settings.get "sections").truthy = true
  ∧ (settings.get "sections").isObjectType = true
  ∧ (settings.get "sections").keyCount ≠ 0
  ∧ (∀ p ∈ (settings.get "sections").entries, sectionStructOk p.2 = true)
  ∧ 2 * (requiredSections.countP fun k => !(((settings.get "sections").get k).truthy))
      ≤ requiredSections.length

/-- What loadSectionsSettings does with the fetched document: apply its
sections, or enter the recovery path. -/
inductive LoadAction where
  | applied (sections : JVal)
  | recover

/-- loadSectionsSettings from blocks-manager.js: recovery on fetch error or
failed integrity check, otherwise the sections are applied. -/
def loadSectionsSettings (fetched : Except String JVal) : LoadAction :=
  match fetched with
  | Except.error _ => LoadAction.recover
  | Except.ok s =>
    if validateSettingsIntegrity s then LoadAction.applied (s.get "sections")
    else LoadAction.recover

lemma validateSettingsIntegrity_iff (s : JVal) :
    validateSettingsIntegrity s = true ↔ specIntegrity s := by
  unfold validateSettingsIntegrity specIntegrity
  constructor
  · intro h
    split_ifs at h with ha hb hc
    have hab : ((s.get "sections").truthy && (s.get "sections").isObjectType) = true := by
      revert ha
      cases ((s.get "sections").truthy && (s.get "sections").isObjectType) <;> simp
    rw [Bool.and_eq_true] at hab
    obtain ⟨h1, h2⟩ := hab
    exact ⟨h1, h2, hb, List.all_eq_true.mp h, by omega⟩
  · intro ⟨h1, h2, h3, h4, h5⟩
    have hc1 : ¬((!((s.get "sections").truthy && (s.get "sections").isObjectType)) = true) := by
      simp [h1, h2]
    have hc3 : ¬(2 * (requiredSections.countP fun k => !(((s.get "sections").get k).truthy))
        > requiredSections.length) := by omega
    rw [if_neg hc1, if_neg h3, if_neg hc3]
    exact List.all_eq_true.mpr h4

/-- C4: validateSettingsIntegrity accepts exactly the documents the spec
describes, a document with no sections key is rejected and sent to recovery,
a rejected document always goes to recovery, and an accepted document has its
sections applied with no recovery. -/
theorem settings_integrity_accepts_iff :
    (∀ s : JVal, validateSettingsIntegrity s = true ↔ specIntegrity s)
    ∧ (∀ s : JVal, s.get "sections" = JVal.undef →
        loadSectionsSettings (Except.ok s) = LoadAction.recover)
    ∧ (∀ s : JVal, validateSettingsIntegrity s = true →
        loadSectionsSettings (Except.ok s) = LoadAction.applied (s.get "sections"))
    ∧ (∀ s : JVal, validateSettingsIntegrity s = false →
        loadSectionsSettings (Except.ok s) = LoadAction.recover) := by
  refine ⟨validateSettingsIntegrity_iff, ?_, ?_, ?_⟩
  · intro s h
    have hv : validateSettingsIntegrity s = false := by
      unfold validateSettingsIntegrity
      rw [h]
      rfl
    show (if validateSettingsIntegrity s = true then LoadAction.applied (s.get "sections")
      else LoadAction.recover) = LoadAction.recover
    rw [hv]
    rfl
  · intro s h
    show (if validateSettingsIntegrity s = true then LoadAction.applied (s.get "sections")
      else LoadAction.recover) = LoadAction.applied (s.get "sections")
    rw [h]
    rfl
  · intro s h
    show (if validateSettingsIntegrity s = true then LoadAction.applied (s.get "sections")
      else LoadAction.recover) = LoadAction.recover
    rw [h]
    rfl

/-- A structurally valid section object. -/
def exampleSection : JVal :=
  JVal.obj [("title", JVal.str "t"), ("enabled", JVal.bool true),
    ("content", JVal.obj [("heading", JVal.str "h")])]

/-- A fully valid settings document with all seven required sections. -/
def validSettingsDoc : JVal :=
  JVal.obj [("sections", JVal.obj [
    ("problemSolution", exampleSection), ("programs", exampleSection),
    ("socialProof", exampleSection), ("testimonials", exampleSection),
    ("gallery", exampleSection), ("faq", exampleSection),
    ("leadForm", exampleSection)])]

/-- A settings document with no sections key at all. -/
def emptySettingsDoc : JVal :=
  JVal.obj [("hero", JVal.obj [("backgroundImage", JVal.str "x.jpg")])]

/-- Witness for C4 at a fully valid document and at a document with no
sections key. -/
theorem settings_integrity_accepts_iff_witness :
    (validateSettingsIntegrity validSettingsDoc = true ↔ specIntegrity validSettingsDoc)
    ∧ validateSettingsIntegrity validSettingsDoc = true
    ∧ loadSectionsSettings (Except.ok validSettingsDoc)
        = LoadAction.applied (validSettingsDoc.get "sections")
    ∧ emptySettingsDoc.get "sections" = JVal.undef
    ∧ loadSectionsSettings (Except.ok emptySettingsDoc) = LoadAction.recover :=
  ⟨settings_integrity_accepts_iff.1 validSettingsDoc, rfl,
    settings_integrity_accepts_iff.2.2.1 validSettingsDoc rfl, rfl,
    settings_integrity_accepts_iff.2.1 emptySettingsDoc rfl⟩

/-- What recoverFromDefault does: apply the default sections, persisting them
back to the primary store, or fall back to showing all sections. -/
inductive RecoverAction where
  | appliedDefault (sections : JVal) (persisted : Bool)
  | showAll

/-- recoverFromDefault from blocks-manager.js: if the default document has a
truthy, non-empty sections value, apply it and save it back through the
GAS save endpoint; otherwise, or on fetch failure, show all sections. -/
def recoverFromDefault (defaultFetch : Except String JVal) : RecoverAction :=
  match defaultFetch with
  | Except.error _ => RecoverAction.showAll
  | Except.ok d =>
    if (d.get "sections").truthy = true ∧ (d.get "sections").keyCount > 0 then
      RecoverAction.appliedDefault (d.get "sections") true
    else RecoverAction.showAll

/-- The selectors of every known section, as listed in showAllSections. -/
def knownSectionSelectors : List String :=
  ["#problem-solution", "#programs", ".program-comparison-note", "#how-it-works",
   "#social-proof", "#testimonials", "#gallery", "#pricing", "#faq",
   "#faq .text-center.mt-xl", "#lead-form", ".footer-about", ".footer-contacts",
   ".footer-documents"]

/-- showAllSections from blocks-manager.js, on a display map: every known
selector is reset to the default (visible) display. -/
def showAllSections (display : String → String) : String → String :=
  fun sel => if sel ∈ knownSectionSelectors then "" else display sel

/-- Outcome of the full hydration chain. -/
inductive HydrateResult where
  | appliedPrimary (sections : JVal)
  | recoveredDefault (sections : JVal) (persisted : Bool)
  | shownAll

/-- The hydration chain: the primary document, then on recovery the default
document, then the show-everything fallback. -/
def hydrate (primary defaultFetch : Except String JVal) : HydrateResult :=
  match loadSectionsSettings primary with
  | LoadAction.applied secs => HydrateResult.appliedPrimary secs
  | LoadAction.recover =>
    match recoverFromDefault defaultFetch with
    | RecoverAction.appliedDefault secs p => HydrateResult.recoveredDefault secs p
    | RecoverAction.showAll => HydrateResult.shownAll

/-- C5: whenever the primary load enters recovery, the hydrator consults the
default document: a non-empty default is applied and persisted back; an empty
or unreachable default leads to the show-everything fallback, which forces
every known section visible. -/
theorem settings_recovery_fail_open :
    (∀ primary : Except String JVal, ∀ d : JVal,
      loadSectionsSettings primary = LoadAction.recover →
      (d.get "sections").truthy = true → (d.get "sections").keyCount > 0 →
      hydrate primary (Except.ok d) = HydrateResult.recoveredDefault (d.get "sections") true)
    ∧ (∀ primary defaultFetch : Except String JVal,
        loadSectionsSettings primary = LoadAction.recover →
        recoverFromDefault defaultFetch = RecoverAction.showAll →
        hydrate primary defaultFetch = HydrateResult.shownAll)
    ∧ (∀ e : String, recoverFromDefault (Except.error e) = RecoverAction.showAll)
    ∧ (∀ d : JVal, ¬((d.get "sections").truthy = true ∧ (d.get "sections").keyCount > 0) →
        recoverFromDefault (Except.ok d) = RecoverAction.showAll)
    ∧ (∀ display : String → String, ∀ sel ∈ knownSectionSelectors,
        showAllSections display sel = "") := by
  refine ⟨?_, ?_, ?_, ?_, ?_⟩
  · intro primary d hrec ht hk
    unfold hydrate
    rw [hrec]
    show (match recoverFromDefault (Except.ok d) with
      | RecoverAction.appliedDefault secs p => HydrateResult.recoveredDefault secs p
      | RecoverAction.showAll => HydrateResult.shownAll)
      = HydrateResult.recoveredDefault (d.get "sections") true
    have hr : recoverFromDefault (Except.ok d)
        = RecoverAction.appliedDefault (d.get "sections") true := by
      show (if (d.get "sections").truthy = true ∧ (d.get "sections").keyCount > 0 then
        RecoverAction.appliedDefault (d.get "sections") true
        else RecoverAction.showAll) = RecoverAction.appliedDefault (d.get "sections") true
      rw [if_pos ⟨ht, hk⟩]
    rw [hr]
  · intro primary defaultFetch hrec hshow
    unfold hydrate
    rw [hrec, hshow]
  · intro e
    rfl
  · intro d hnot
    show (if (d.get "sections").truthy = true ∧ (d.get "sections").keyCount > 0 then
      RecoverAction.appliedDefault (d.get "sections") true
      else RecoverAction.showAll) = RecoverAction.showAll
    rw [if_neg hnot]
  · intro display sel hsel
    unfold showAllSections
    rw [if_pos hsel]

/-- Witness for C5: a failing primary fetch with a valid default document is
recovered and persisted, and with a failing default fetch every known section
is shown. -/
theorem settings_recovery_fail_open_witness :
    loadSectionsSettings (Except.error "fetch failed") = LoadAction.recover
    ∧ (validSettingsDoc.get "sections").truthy = true
    ∧ (validSettingsDoc.get "sections").keyCount > 0
    ∧ hydrate (Except.error "fetch failed") (Except.ok validSettingsDoc)
        = HydrateResult.recoveredDefault (validSettingsDoc.get "sections") true
    ∧ hydrate (Except.error "fetch failed") (Except.error "default fetch failed")
        = HydrateResult.shownAll
    ∧ ("#programs" : String) ∈ knownSectionSelectors
    ∧ showAllSections (fun _ => "none") "#programs" = "" := by
  refine ⟨rfl, rfl, by decide, ?_, ?_, by decide, ?_⟩
  · exact settings_recovery_fail_open.1 (Except.error "fetch failed") validSettingsDoc rfl rfl
      (by decide)
  · exact settings_recovery_fail_open.2.1 (Except.error "fetch failed")
      (Except.error "default fetch failed") rfl rfl
  · exact settings_recovery_fail_open.2.2.2.2 (fun _ => "none") "#programs" (by decide)
